import Mathlib

/-!
Verification of the InterPro-Redirects 404-log analysis engine.

The development shallowly embeds the decision logic of `src/analyzer.py` and
`src/dashboard.py`:

* URL normalization (`normalize` / `normalize_url`): both sources compute
  `urlparse(url).path.rstrip("/")` inside a try/except that returns the
  original input on any parse error.  The relevant behaviour of CPython's
  `urllib.parse.urlparse` (as called with a single `str` argument) is
  modelled here over `List Char`: removal of tab/CR/LF, scheme detection,
  netloc splitting (with the mismatched-bracket ValueError), fragment and
  query splitting, and the `;params` split that `urlparse` applies when the
  scheme is in `uses_params`.  Newer CPython versions raise ValueError for a
  few more malformed netlocs (invalid bracketed hosts, NFKC-unstable
  netlocs); every such error is caught by the sources' except-clause and
  handled by the same identity fallback, so the claims do not depend on the
  exact error set.
* user-agent classification and the attack-signature detector from
  `src/dashboard.py` (the regex there is an alternation of five literal
  patterns with `re.I`, i.e. a case-insensitive substring test).
* the per-IP and per-URL aggregations of both variants.  pandas `groupby`
  iterates groups in sorted key order and each input row lands in exactly
  one group of its key; that is modelled by deduplicating the key column,
  sorting it, and re-filtering the record list per key.
* `sort_values(..., ascending=False)` is modelled with a stable insertion
  sort by the same key.  pandas' default sort kind is an unstable quicksort,
  so only the descending order of the key is a property of the source; the
  relative order of tied rows is not modelled (see the discussion at claim
  C9).

Machine reals (`float` scores, `log2`) are modelled with `ℝ`; in every
concrete computation used below the float arithmetic of the source is exact,
so no rounding gap arises.  The `round(x, 2)` calls in `analyzer.py` are
display rounding of the exported CSV columns only (the spec fixes that
threshold checks use unrounded values, and `suspected_bot` is indeed
computed from the unrounded score in the source); the embedded report rows
therefore carry the unrounded values.
-/

namespace InterPro

/-! ## String helpers -/

/-- Python `str.lower()` restricted to ASCII, which is all the fixed rule
patterns use. -/
def lowerStr (s : String) : String :=
  String.mk (s.toList.map Char.toLower)

/-- `startsWithSeq p l` holds when `p` is a leading run of `l`. -/
def startsWithSeq : List Char → List Char → Bool
  | [], _ => true
  | _ :: _, [] => false
  | a :: ps, b :: ls => a == b && startsWithSeq ps ls

/-- Substring occurrence test on character lists: Python's `sub in s`. -/
def containsSeq (p : List Char) : List Char → Bool
  | [] => p.isEmpty
  | b :: ls => startsWithSeq p (b :: ls) || containsSeq p ls

/-- Python's `pat in s` on strings. -/
def containsSub (s pat : String) : Bool :=
  containsSeq pat.toList s.toList

/-! ## The URL parser model (CPython `urllib.parse`, as used by the sources) -/

/-- `_UNSAFE_URL_BYTES_TO_REMOVE`: characters CPython strips from the URL
before parsing. -/
def urlStripChars : List Char := ['\t', '\r', '\n']

/-- The pre-parse cleanup pass: `url.replace(b, "")` for tab, CR, LF. -/
def cleanUrl (l : List Char) : List Char :=
  l.filter (fun c => !urlStripChars.contains c)

/-- CPython `scheme_chars`. -/
def schemeChars : List Char :=
  "abcdefghijklmnopqrstuvwxyzABCDEFGHIJKLMNOPQRSTUVWXYZ0123456789+-.".toList

/-- CPython's scheme test in `urlsplit`: a `:` at some index `i > 0`, with
`url[0]` an ASCII letter and every char of `url[:i]` in `scheme_chars`.
(`Char.isAlpha` is the ASCII range, matching `isascii() and isalpha()`.) -/
def hasScheme (l : List Char) : Bool :=
  let pre := l.takeWhile (fun c => !(c == ':'))
  decide (pre.length < l.length) && decide (0 < pre.length) &&
    (match l.head? with
     | some c => c.isAlpha
     | none => false) &&
    pre.all (fun c => schemeChars.contains c)

/-- The parsed scheme, lowercased as CPython does (`url[:i].lower()`);
empty when no scheme is recognised. -/
def schemeOf (l : List Char) : List Char :=
  if hasScheme l then (l.takeWhile (fun c => !(c == ':'))).map Char.toLower else []

/-- `url = url[i+1:]` after a recognised scheme. -/
def afterScheme (l : List Char) : List Char :=
  if hasScheme l then l.drop ((l.takeWhile (fun c => !(c == ':'))).length + 1) else l

/-- The delimiters `_splitnetloc` stops at. -/
def netlocEnd (c : Char) : Bool := c == '/' || c == '?' || c == '#'

/-- The netloc step of `urlsplit`: when the url starts with `//`, cut the
netloc (up to the next `/`, `?` or `#`) and raise ValueError on a mismatched
IPv6 bracket.  Returns the url remaining after the netloc. -/
def splitNetloc (l : List Char) : Except Unit (List Char) :=
  if l.take 2 = ['/', '/'] then
    if ((l.drop 2).takeWhile (fun c => !netlocEnd c)).contains '['
        != ((l.drop 2).takeWhile (fun c => !netlocEnd c)).contains ']' then Except.error ()
    else Except.ok ((l.drop 2).drop ((l.drop 2).takeWhile (fun c => !netlocEnd c)).length)
  else Except.ok l

/-- `url, fragment = url.split('#', 1)` guarded by `'#' in url`
(`allow_fragments` is left at its default `True` by the sources). -/
def dropFragment (l : List Char) : List Char :=
  if l.contains '#' then l.takeWhile (fun c => !(c == '#')) else l

/-- `url, query = url.split('?', 1)` guarded by `'?' in url`. -/
def dropQuery (l : List Char) : List Char :=
  if l.contains '?' then l.takeWhile (fun c => !(c == '?')) else l

/-- CPython `uses_params`. -/
def usesParams : List String :=
  ["", "ftp", "hdl", "prospero", "http", "imap", "https", "shttp", "rtsp",
   "rtsps", "rtspu", "sip", "sips", "mms", "sftp", "tel"]

/-- CPython `_splitparams`, path half: cut at the first `;` at or after the
last `/` (or at the first `;` at all when the path has no `/`). -/
def splitparams (l : List Char) : List Char :=
  if l.contains '/' then
    if (l.drop (l.length - 1 - List.indexOf '/' l.reverse)).contains ';' then
      l.take ((l.length - 1 - List.indexOf '/' l.reverse)
        + List.indexOf ';' (l.drop (l.length - 1 - List.indexOf '/' l.reverse)))
    else l
  else
    l.take (List.indexOf ';' l)

/-- The params step of `urlparse`: applied only when the (lowercased) scheme
is in `uses_params` and the path contains `;`. -/
def paramsSplit (scheme : List Char) (l : List Char) : List Char :=
  if usesParams.contains (String.mk scheme) && l.contains ';' then splitparams l else l

/-- `urlparse(s).path` for a `str` argument, or the ValueError branch. -/
def urlparsePath (s : String) : Except Unit String :=
  match splitNetloc (afterScheme (cleanUrl s.toList)) with
  | Except.error e => Except.error e
  | Except.ok afterNetloc =>
      Except.ok (String.mk (paramsSplit (schemeOf (cleanUrl s.toList))
        (dropQuery (dropFragment afterNetloc))))

/-- Python `str.rstrip("/")`: every trailing slash is removed. -/
def rstripSlash (s : String) : String :=
  String.mk ((s.toList.reverse.dropWhile (fun c => c == '/')).reverse)

/-- `src/analyzer.py` lines 6-10: `urlparse(url).path.rstrip("/")`, falling
back to the input on a parse error (the bare `except:`). -/
def normalize (url : String) : String :=
  match urlparsePath url with
  | Except.ok path => rstripSlash path
  | Except.error _ => url

/-- `src/dashboard.py` lines 48-53: the same computation; the fallback is
`str(url)`, the identity on strings. -/
def normalize_url (url : String) : String :=
  match urlparsePath url with
  | Except.ok path => rstripSlash path
  | Except.error _ => url

/-! ## User-agent classifier and attack detector (`src/dashboard.py`) -/

/-- `src/dashboard.py` lines 58-73.  `pd.isna(ua)` (a missing user agent) is
modelled by `Option.none`. -/
def classify_user_agent (ua : Option String) : String :=
  match ua with
  | none => "unknown"
  | some s =>
      let ual := lowerStr s
      if containsSub ual "googlebot" || containsSub ual "google" then "google"
      else if containsSub ual "bingbot" || containsSub ual "bing" then "bing"
      else if containsSub ual "amazonbot" then "amazon"
      else if containsSub ual "chatgpt" || containsSub ual "openai" then "openai"
      else if containsSub ual "bot" || containsSub ual "crawler" || containsSub ual "spider" then "other-bot"
      else "human"

/-- The five literal alternatives of the regex in `is_php_attack`
(the dots are escaped there, so each is a literal substring). -/
def attackPatterns : List String := [".php", "wp-admin", "wp-includes", ".env", ".git"]

/-- `src/dashboard.py` lines 55-56: `re.search(r"\.php|wp-admin|wp-includes|\.env|\.git", str(url), re.I)`,
i.e. a case-insensitive substring match against the five patterns. -/
def is_php_attack (url : String) : Bool :=
  attackPatterns.any (fun p => containsSub (lowerStr url) p)

/-! ## Records and grouping -/

/-- A raw 404 log row (`date, source_url, user_agent, ip`); `user_agent` is
nullable.  The `date` column is only consumed by `pd.to_datetime` for the
display-only `first_seen`/`last_seen`/trend outputs, which no claim
references. -/
structure RawRecord where
  date : String
  source_url : String
  user_agent : Option String
  ip : String
deriving DecidableEq

/-- The rows of one IP's `groupby("ip")` group, in input order. -/
def groupByIp (records : List RawRecord) (ip : String) : List RawRecord :=
  records.filter (fun r => r.ip == ip)

/-- Code-point lexicographic order on character lists: how Python compares
the `str` group keys that pandas sorts. -/
def charListLe : List Char → List Char → Bool
  | [], _ => true
  | _ :: _, [] => false
  | a :: as, b :: bs =>
      if a.val.toNat < b.val.toNat then true
      else if b.val.toNat < a.val.toNat then false
      else charListLe as bs

/-- Python string order, as a boolean relation for the sorted group keys. -/
def strLeB (a b : String) : Bool := charListLe a.toList b.toList

/-- The distinct IPs in sorted order: the iteration order of `groupby("ip")`. -/
def sortedIps (records : List RawRecord) : List String :=
  List.insertionSort (fun a b => strLeB a b = true) ((records.map (fun r => r.ip)).dedup)

/-! ## The continuous-score variant (`src/analyzer.py`) -/

/-- `src/analyzer.py` lines 12-14: `value_counts(normalize=True)` yields the
empirical probability of each distinct value, and the result is
`-sum(p * log2(p) for p in probs)`.  (`value_counts` orders the
probabilities by frequency; the sum is order-independent, so the distinct
values are enumerated by `dedup` here.) -/
noncomputable def entropy (values : List String) : ℝ :=
  -((values.dedup.map (fun v =>
      ((values.count v : ℝ) / (values.length : ℝ)) *
        Real.logb 2 ((values.count v : ℝ) / (values.length : ℝ)))).sum)

/-- The group's `normalized_url` column (`df["source_url"].apply(normalize)`
restricted to the group). -/
def normUrls (g : List RawRecord) : List String :=
  g.map (fun r => normalize r.source_url)

/-- `g["normalized_url"].nunique()`. -/
def unique_urls (g : List RawRecord) : ℕ := (normUrls g).dedup.length

/-- `g["is_php"].sum()` where `is_php = normalized_url.str.endswith(".php")`
(case-sensitive, as Python `str.endswith` is). -/
def php_hits (g : List RawRecord) : ℕ :=
  g.countP (fun r => List.isSuffixOf ".php".toList (normalize r.source_url).toList)

/-- `src/analyzer.py` lines 30-34. -/
noncomputable def bot_score (g : List RawRecord) : ℝ :=
  0.5 * (unique_urls g : ℝ) + 1.5 * (php_hits g : ℝ) + 2.0 * entropy (normUrls g)

/-- `src/analyzer.py` line 43: `bot_score >= 10`. -/
def suspected_bot (g : List RawRecord) : Prop := bot_score g ≥ 10

/-- One row of `ip_report`.  `url_entropy` and `bot_score` carry the
unrounded values; the source rounds both to 2 decimals only when placing
them in the exported CSV row, and computes `suspected_bot` from the
unrounded score. -/
structure IpRow where
  ip : String
  total_hits : ℕ
  unique_urls : ℕ
  php_attempts : ℕ
  url_entropy : ℝ
  bot_score : ℝ
  suspected_bot : Prop

/-- The `ip_rows.append(...)` body of `src/analyzer.py` lines 36-44. -/
noncomputable def mkIpRow (ip : String) (g : List RawRecord) : IpRow :=
  { ip := ip, total_hits := g.length, unique_urls := unique_urls g,
    php_attempts := php_hits g, url_entropy := entropy (normUrls g),
    bot_score := bot_score g, suspected_bot := suspected_bot g }

/-- `src/analyzer.py` lines 25-46: one row per distinct IP, groups visited
in sorted key order. -/
noncomputable def ip_report (records : List RawRecord) : List IpRow :=
  (sortedIps records).map (fun ip => mkIpRow ip (groupByIp records ip))

/-- One row of the per-URL report (`src/analyzer.py` lines 49-58). -/
structure UrlRow where
  normalized_url : String
  total_hits : ℕ
  unique_ips : ℕ
  php : ℕ
deriving DecidableEq

/-- The rows of one normalized URL's group. -/
def groupByUrl (records : List RawRecord) (u : String) : List RawRecord :=
  records.filter (fun r => normalize r.source_url == u)

/-- The distinct normalized URLs in sorted order (`groupby` key order). -/
def sortedUrls (records : List RawRecord) : List String :=
  List.insertionSort (fun a b => strLeB a b = true)
    ((records.map (fun r => normalize r.source_url)).dedup)

/-- `agg(total_hits=("ip","count"), unique_ips=("ip","nunique"), php=("is_php","sum"))`
for one group (the `ip` column of a record is never null here, so `count` is
the group size). -/
def mkUrlRow (u : String) (g : List RawRecord) : UrlRow :=
  { normalized_url := u, total_hits := g.length,
    unique_ips := (g.map (fun r => r.ip)).dedup.length,
    php := g.countP (fun r => List.isSuffixOf ".php".toList (normalize r.source_url).toList) }

/-- `src/analyzer.py` lines 49-58.  The final sort is modelled with a
stable insertion sort by descending `total_hits`; pandas' default sort kind
is an unstable quicksort, so among rows with equal `total_hits` the source
fixes no particular order and this model realises one admissible order. -/
def url_report (records : List RawRecord) : List UrlRow :=
  List.insertionSort (fun a b => b.total_hits ≤ a.total_hits)
    ((sortedUrls records).map (fun u => mkUrlRow u (groupByUrl records u)))

/-! ## The threshold variant (`src/dashboard.py`) -/

/-- `src/dashboard.py` line 24. -/
def BOT_THRESHOLD_URLS : ℕ := 5

/-- `src/dashboard.py` line 25. -/
def BOT_THRESHOLD_PHP : ℕ := 3

/-- The group's `normalized_url` column on the dashboard side. -/
def dashNormUrls (g : List RawRecord) : List String :=
  g.map (fun r => normalize_url r.source_url)

/-- `php_attempts=("is_php_attack","sum")` where
`is_php_attack = normalized_url.apply(is_php_attack)` (line 96). -/
def dashPhpAttempts (g : List RawRecord) : ℕ :=
  g.countP (fun r => is_php_attack (normalize_url r.source_url))

/-- One row of `ip_stats` (`src/dashboard.py` lines 103-119).  The
display-only `first_seen`/`last_seen` aggregates (min/max of
`pd.to_datetime` results) are not modelled; no claim references them.
`total_hits=("source_url","count")` is the group size (no nulls here). -/
structure IpStatsRow where
  ip : String
  total_hits : ℕ
  unique_urls : ℕ
  php_attempts : ℕ
  suspected_bot : Bool
deriving DecidableEq

/-- One `ip_stats` row with its `suspected_bot` flag from lines 116-119:
`(unique_urls >= BOT_THRESHOLD_URLS) | (php_attempts >= BOT_THRESHOLD_PHP)`. -/
def mkIpStatsRow (ip : String) (g : List RawRecord) : IpStatsRow :=
  { ip := ip, total_hits := g.length,
    unique_urls := (dashNormUrls g).dedup.length,
    php_attempts := dashPhpAttempts g,
    suspected_bot := decide (BOT_THRESHOLD_URLS ≤ (dashNormUrls g).dedup.length)
      || decide (BOT_THRESHOLD_PHP ≤ dashPhpAttempts g) }

/-- `src/dashboard.py` lines 103-119. -/
def ip_stats (records : List RawRecord) : List IpStatsRow :=
  (sortedIps records).map (fun ip => mkIpStatsRow ip (groupByIp records ip))

/-- `human_ips = ip_stats[~ip_stats["suspected_bot"]]["ip"]` (line 285). -/
def human_ips (records : List RawRecord) : List String :=
  ((ip_stats records).filter (fun row => !row.suspected_bot)).map (fun row => row.ip)

/-- `human_hits = raw_df[raw_df["ip"].isin(human_ips)]` (line 286). -/
def human_hits (records : List RawRecord) : List RawRecord :=
  records.filter (fun r => (human_ips records).contains r.ip)

/-- One row of the redirect-candidate table (lines 288-297). -/
structure CandidateRow where
  normalized_url : String
  hits : ℕ
  unique_ips : ℕ
deriving DecidableEq

/-- `agg(hits=("normalized_url","count"), unique_ips=("ip","nunique"))` for
one group of the filtered record set. -/
def mkCandidateRow (u : String) (g : List RawRecord) : CandidateRow :=
  { normalized_url := u, hits := g.length,
    unique_ips := (g.map (fun r => r.ip)).dedup.length }

/-- The sorted distinct normalized URLs of a record list (dashboard side). -/
def dashSortedUrls (l : List RawRecord) : List String :=
  List.insertionSort (fun a b => strLeB a b = true)
    ((l.map (fun r => normalize_url r.source_url)).dedup)

/-- `src/dashboard.py` lines 288-297: re-aggregate the bot-filtered records
by `normalized_url` and sort descending by `hits` (same sort-model remark as
for `url_report`). -/
def candidates (records : List RawRecord) : List CandidateRow :=
  List.insertionSort (fun a b => b.hits ≤ a.hits)
    ((dashSortedUrls (human_hits records)).map
      (fun u => mkCandidateRow u ((human_hits records).filter
        (fun r => normalize_url r.source_url == u))))

/-! ## Claim-side comparison definitions -/

/-- Modelled from the spec's words for comparison with the source (claim
C1): `attack_or_php_hits` = "count where `is_attack` true", `is_attack`
being the attack-signature match on the normalized URL. -/
def attack_or_php_hits (g : List RawRecord) : ℕ :=
  g.countP (fun r => is_php_attack (normalize r.source_url))

/-- Modelled from the spec's words for comparison with the source (claim
C1): the claimed score `0.5·unique_urls + 1.5·attack_or_php_hits + 2.0·url_entropy`
with `attack_or_php_hits` counting `is_attack` records. -/
noncomputable def specBotScore (g : List RawRecord) : ℝ :=
  0.5 * (unique_urls g : ℝ) + 1.5 * (attack_or_php_hits g : ℝ) + 2.0 * entropy (normUrls g)

/-! ## General helper lemmas -/

/-- The head of a `dropWhile` result fails the predicate. -/
lemma head?_dropWhile_false (p : Char → Bool) (l : List Char) (a : Char)
    (h : (l.dropWhile p).head? = some a) : p a = false := by
  induction l with
  | nil => simp at h
  | cons x xs ih =>
    rw [List.dropWhile_cons] at h
    split at h
    · exact ih h
    · simp_all

/-- `dropWhile` is the identity when the head fails the predicate. -/
lemma dropWhile_eq_self_of_head (p : Char → Bool) (l : List Char)
    (h : ∀ a, l.head? = some a → p a = false) : l.dropWhile p = l := by
  cases l with
  | nil => rfl
  | cons x xs =>
    rw [List.dropWhile_cons, if_neg]
    simp [h x rfl]

/-- Each group's size, summed over the distinct keys, returns every record:
the groups of a `groupby` partition the input. -/
lemma sum_filtered_lengths (key : RawRecord → String) (records : List RawRecord) :
    (((records.map key).dedup).map
        (fun k => (records.filter (fun r => key r == k)).length)).sum
      = records.length := by
  have h1 : ∀ k, (records.filter (fun r => key r == k)).length
      = List.count k (records.map key) := by
    intro k
    rw [← List.countP_eq_length_filter, List.count_eq_countP, List.countP_map]
    rfl
  simp only [h1]
  simpa using List.sum_map_count_dedup_eq_length (records.map key)

/-! ## Claim C4 — attack-signature detector -/

/-- C4: the attack-signature detector returns true for a normalized URL if
and only if the URL case-insensitively matches at least one pattern of the
fixed set containing ".php", "wp-admin", "wp-includes", ".env" and ".git";
in particular it returns true for "/wp-admin/tools.php" and false for
"/images/logo.png". -/
theorem C4_attack_signature :
    (∀ url : String, is_php_attack url = true ↔
        ∃ p ∈ attackPatterns, containsSub (lowerStr url) p = true)
    ∧ is_php_attack "/wp-admin/tools.php" = true
    ∧ is_php_attack "/images/logo.png" = false := by
  refine ⟨fun url => ?_, by decide, by decide⟩
  simp [is_php_attack, List.any_eq_true]

/-! ## Claim C3 — user-agent classifier -/

/-- C3: user-agent classification is a total, deterministic function (it is
a function of the optional user-agent string alone) evaluating the fixed
rule list case-insensitively with first match winning: a missing user agent
maps to "unknown"; each later rule applies only when every earlier rule
failed; a string matching no rule maps to "human"; and "Googlebot/2.1 (+bot)"
classifies as "google", not "other-bot". -/
theorem C3_classifier_rules :
    classify_user_agent none = "unknown"
    ∧ (∀ s : String,
        (containsSub (lowerStr s) "googlebot" || containsSub (lowerStr s) "google") = true →
        classify_user_agent (some s) = "google")
    ∧ (∀ s : String,
        (containsSub (lowerStr s) "googlebot" || containsSub (lowerStr s) "google") = false →
        (containsSub (lowerStr s) "bingbot" || containsSub (lowerStr s) "bing") = true →
        classify_user_agent (some s) = "bing")
    ∧ (∀ s : String,
        (containsSub (lowerStr s) "googlebot" || containsSub (lowerStr s) "google") = false →
        (containsSub (lowerStr s) "bingbot" || containsSub (lowerStr s) "bing") = false →
        containsSub (lowerStr s) "amazonbot" = true →
        classify_user_agent (some s) = "amazon")
    ∧ (∀ s : String,
        (containsSub (lowerStr s) "googlebot" || containsSub (lowerStr s) "google") = false →
        (containsSub (lowerStr s) "bingbot" || containsSub (lowerStr s) "bing") = false →
        containsSub (lowerStr s) "amazonbot" = false →
        (containsSub (lowerStr s) "chatgpt" || containsSub (lowerStr s) "openai") = true →
        classify_user_agent (some s) = "openai")
    ∧ (∀ s : String,
        (containsSub (lowerStr s) "googlebot" || containsSub (lowerStr s) "google") = false →
        (containsSub (lowerStr s) "bingbot" || containsSub (lowerStr s) "bing") = false →
        containsSub (lowerStr s) "amazonbot" = false →
        (containsSub (lowerStr s) "chatgpt" || containsSub (lowerStr s) "openai") = false →
        (containsSub (lowerStr s) "bot" || containsSub (lowerStr s) "crawler"
          || containsSub (lowerStr s) "spider") = true →
        classify_user_agent (some s) = "other-bot")
    ∧ (∀ s : String,
        (containsSub (lowerStr s) "googlebot" || containsSub (lowerStr s) "google") = false →
        (containsSub (lowerStr s) "bingbot" || containsSub (lowerStr s) "bing") = false →
        containsSub (lowerStr s) "amazonbot" = false →
        (containsSub (lowerStr s) "chatgpt" || containsSub (lowerStr s) "openai") = false →
        (containsSub (lowerStr s) "bot" || containsSub (lowerStr s) "crawler"
          || containsSub (lowerStr s) "spider") = false →
        classify_user_agent (some s) = "human")
    ∧ classify_user_agent (some "Googlebot/2.1 (+bot)") = "google" := by
  refine ⟨rfl, ?_, ?_, ?_, ?_, ?_, ?_, by decide⟩
  · intro s h1
    simp [classify_user_agent, h1]
  · intro s h1 h2
    simp [classify_user_agent, h1, h2]
  · intro s h1 h2 h3
    simp [classify_user_agent, h1, h2, h3]
  · intro s h1 h2 h3 h4
    simp [classify_user_agent, h1, h2, h3, h4]
  · intro s h1 h2 h3 h4 h5
    simp [classify_user_agent, h1, h2, h3, h4, h5]
  · intro s h1 h2 h3 h4 h5
    simp [classify_user_agent, h1, h2, h3, h4, h5]

/-! ## Parser lemmas for claims C7 and C10 -/

lemma afterScheme_subset (l : List Char) : afterScheme l ⊆ l := by
  rw [afterScheme]
  split
  · exact (List.drop_sublist _ _).subset
  · exact fun _ h => h

lemma splitNetloc_subset (l m : List Char) (h : splitNetloc l = Except.ok m) : m ⊆ l := by
  rw [splitNetloc] at h
  split at h
  · split at h
    · cases h
    · injection h with h
      subst h
      exact ((List.drop_sublist _ _).trans (List.drop_sublist _ _)).subset
  · injection h with h
    subst h
    exact fun _ h => h

lemma dropFragment_subset (l : List Char) : dropFragment l ⊆ l := by
  rw [dropFragment]
  split
  · exact (List.takeWhile_sublist _).subset
  · exact fun _ h => h

lemma dropQuery_subset (l : List Char) : dropQuery l ⊆ l := by
  rw [dropQuery]
  split
  · exact (List.takeWhile_sublist _).subset
  · exact fun _ h => h

lemma splitparams_subset (l : List Char) : splitparams l ⊆ l := by
  rw [splitparams]
  split
  · split
    · exact (List.take_sublist _ _).subset
    · exact fun _ h => h
  · exact (List.take_sublist _ _).subset

lemma paramsSplit_subset (sch l : List Char) : paramsSplit sch l ⊆ l := by
  rw [paramsSplit]
  split
  · exact splitparams_subset l
  · exact fun _ h => h

lemma rstripSlash_toList_subset (s : String) : (rstripSlash s).toList ⊆ s.toList := by
  intro c hc
  rw [rstripSlash] at hc
  have hc2 : c ∈ (s.toList.reverse.dropWhile (fun c => c == '/')).reverse := hc
  rw [List.mem_reverse] at hc2
  have hc3 := (List.dropWhile_sublist _).subset hc2
  rwa [List.mem_reverse] at hc3

/-- No character of a `dropFragment` result is the fragment delimiter. -/
lemma mem_dropFragment_ne (l : List Char) (c : Char) (h : c ∈ dropFragment l) : ¬ c = '#' := by
  rw [dropFragment] at h
  split at h
  · have := List.mem_takeWhile_imp h
    simpa using this
  · next hcon =>
      intro hc
      subst hc
      rw [Bool.not_eq_true] at hcon
      have : ('#' : Char) ∉ l := by simpa [List.contains] using hcon
      exact this h

/-- No character of a `dropQuery` result is the query delimiter. -/
lemma mem_dropQuery_ne (l : List Char) (c : Char) (h : c ∈ dropQuery l) : ¬ c = '?' := by
  rw [dropQuery] at h
  split at h
  · have := List.mem_takeWhile_imp h
    simpa using this
  · next hcon =>
      intro hc
      subst hc
      rw [Bool.not_eq_true] at hcon
      have : ('?' : Char) ∉ l := by simpa [List.contains] using hcon
      exact this h

/-- On a successful parse the returned path consists of characters of the
cleaned input that are neither `#` nor `?`. -/
lemma urlparsePath_ok_chars (s p : String) (h : urlparsePath s = Except.ok p) :
    ∀ c ∈ p.toList, c ∈ cleanUrl s.toList ∧ ¬ c = '#' ∧ ¬ c = '?' := by
  cases hn : splitNetloc (afterScheme (cleanUrl s.toList)) with
  | error e =>
      rw [urlparsePath, hn] at h
      cases h
  | ok m =>
      rw [urlparsePath, hn] at h
      have h2 : Except.ok (String.mk (paramsSplit (schemeOf (cleanUrl s.toList))
          (dropQuery (dropFragment m)))) = Except.ok p := h
      injection h2 with h2
      intro c hc
      rw [← h2] at hc
      have hc1 : c ∈ paramsSplit (schemeOf (cleanUrl s.toList))
          (dropQuery (dropFragment m)) := hc
      have hq : c ∈ dropQuery (dropFragment m) := paramsSplit_subset _ _ hc1
      have hf : c ∈ dropFragment m := dropQuery_subset _ hq
      have hm : c ∈ m := dropFragment_subset _ hf
      exact ⟨afterScheme_subset _ (splitNetloc_subset _ _ hn hm),
        mem_dropFragment_ne _ _ hf, mem_dropQuery_ne _ _ hq⟩

/-- On a successful parse, `rstripSlash path` ends in no slash and keeps the
character facts of the path. -/
lemma normalize_ok_facts (s p : String) (h : urlparsePath s = Except.ok p) :
    (∀ c ∈ (rstripSlash p).toList,
        (!urlStripChars.contains c) = true ∧ ¬ c = '#' ∧ ¬ c = '?')
    ∧ (rstripSlash p).toList.reverse.head? ≠ some '/' := by
  constructor
  · intro c hc
    have hp := urlparsePath_ok_chars s p h c (rstripSlash_toList_subset _ hc)
    refine ⟨?_, hp.2.1, hp.2.2⟩
    have := List.mem_filter.1 hp.1
    exact this.2
  · have hrev : (rstripSlash p).toList.reverse
        = p.toList.reverse.dropWhile (fun c => c == '/') := by
      rw [rstripSlash]
      exact List.reverse_reverse _
    rw [hrev]
    intro hhead
    have := head?_dropWhile_false _ _ _ hhead
    simp at this

/-- A string whose characters survive the cleanup, that carries no scheme,
no leading `//`, no `#`/`?`, no trailing slash and is unchanged by the
params split, is a fixed point of `normalize`. -/
lemma normalize_fixpoint (r : String)
    (hchars : ∀ c ∈ r.toList,
        (!urlStripChars.contains c) = true ∧ ¬ c = '#' ∧ ¬ c = '?')
    (htail : r.toList.reverse.head? ≠ some '/')
    (hs : hasScheme r.toList = false)
    (hnet : r.toList.take 2 ≠ ['/', '/'])
    (hp : paramsSplit [] r.toList = r.toList) :
    normalize r = r := by
  have hclean : cleanUrl r.toList = r.toList :=
    List.filter_eq_self.mpr (fun c hc => (hchars c hc).1)
  have hsch : afterScheme r.toList = r.toList := by
    rw [afterScheme, if_neg]
    simp only [hs, Bool.false_eq_true, not_false_eq_true]
  have hschemeOf : schemeOf r.toList = [] := by
    rw [schemeOf, if_neg]
    simp only [hs, Bool.false_eq_true, not_false_eq_true]
  have hnetloc : splitNetloc r.toList = Except.ok r.toList := by
    rw [splitNetloc, if_neg hnet]
  have hcf : r.toList.contains '#' = false := by
    rw [Bool.eq_false_iff]
    intro hcon
    have : ('#' : Char) ∈ r.toList := by simpa [List.contains] using hcon
    exact (hchars _ this).2.1 rfl
  have hcq : r.toList.contains '?' = false := by
    rw [Bool.eq_false_iff]
    intro hcon
    have : ('?' : Char) ∈ r.toList := by simpa [List.contains] using hcon
    exact (hchars _ this).2.2 rfl
  have hfrag : dropFragment r.toList = r.toList := by
    rw [dropFragment, hcf]
    simp
  have hq : dropQuery r.toList = r.toList := by
    rw [dropQuery, hcq]
    simp
  have hpath : urlparsePath r = Except.ok (String.mk r.toList) := by
    rw [urlparsePath]
    rw [hclean, hsch, hnetloc, hschemeOf]
    show Except.ok (String.mk (paramsSplit [] (dropQuery (dropFragment r.toList)))) = _
    rw [hfrag, hq, hp]
  have hdw : r.toList.reverse.dropWhile (fun c => c == '/') = r.toList.reverse := by
    apply dropWhile_eq_self_of_head
    intro a ha
    rcases eq_or_ne a '/' with rfl | hne
    · exact absurd ha htail
    · simp [hne]
  have hnr : normalize r = rstripSlash (String.mk r.toList) := by
    rw [normalize, hpath]
  rw [hnr]
  show String.mk ((r.toList.reverse.dropWhile (fun c => c == '/')).reverse) = r
  rw [hdw, List.reverse_reverse]
  cases r
  rfl

/-! ## Claim C7 — totality, fallback and (limited) idempotence of normalization -/

/-- C7 counterexample: normalization applied twice differs from a single
application on the valid URL "http://h//x" (whose path has an empty
segment, so the normalized result "//x" re-parses as a netloc), on the
valid URI "x:y:z" (whose normalized result re-parses with scheme "y"), and
on "/a;b/" (stripping the trailing slash moves the last "/" before the ";",
so the re-parse cuts params).  The claimed idempotence on all valid URL
strings therefore fails. -/
theorem C7_counterexample :
    normalize (normalize "http://h//x") ≠ normalize "http://h//x"
    ∧ normalize (normalize "x:y:z") ≠ normalize "x:y:z"
    ∧ normalize (normalize "/a;b/") ≠ normalize "/a;b/" := by
  refine ⟨by decide, by decide, by decide⟩

/-- C7 (amended): URL normalization never fails — both variants are total
functions that agree, and on any parse error the original input string is
returned unchanged — and applying it twice is the same as applying it once
for every input whose normalized result carries no scheme-like prefix, does
not begin with "//", and is unchanged by the params split; idempotence does
not hold for all valid URL strings (see the counterexample). -/
theorem C7_normalization :
    (∀ s : String, normalize_url s = normalize s)
    ∧ (∀ (s : String) (e : Unit), urlparsePath s = Except.error e → normalize s = s)
    ∧ (∀ s : String, hasScheme (normalize s).toList = false →
        (normalize s).toList.take 2 ≠ ['/', '/'] →
        paramsSplit [] (normalize s).toList = (normalize s).toList →
        normalize (normalize s) = normalize s) := by
  refine ⟨fun s => rfl, fun s e he => by rw [normalize, he], fun s hs hnet hp => ?_⟩
  cases h : urlparsePath s with
  | error e =>
      have hss : normalize s = s := by rw [normalize, h]
      rw [hss]
      exact hss
  | ok p =>
      have hns : normalize s = rstripSlash p := by rw [normalize, h]
      obtain ⟨hchars, htail⟩ := normalize_ok_facts s p h
      rw [hns] at hs hnet hp ⊢
      exact normalize_fixpoint _ hchars htail hs hnet hp

/-- C7 witness: a concrete input satisfying the amended side conditions, on
which idempotence holds. -/
theorem C7_witness : normalize (normalize "/a/b/") = normalize "/a/b/" :=
  C7_normalization.2.2 "/a/b/" (by decide) (by decide) (by decide)

/-! ## Claim C10 — root and empty paths collapse to the empty key -/

/-- C10: normalization maps "/", the empty string and any URL whose parsed
path consists only of slashes (such as "http://host/") to the empty string,
because `rstrip("/")` removes every trailing slash; such requests thus share
the empty `normalized_url` grouping key. -/
theorem C10_root_collapse :
    normalize "/" = "" ∧ normalize "" = "" ∧ normalize "http://host/" = ""
    ∧ (∀ (url p : String), urlparsePath url = Except.ok p →
        (∀ c ∈ p.toList, c = '/') → normalize url = "") := by
  refine ⟨by decide, by decide, by decide, fun url p h hall => ?_⟩
  have hnu : normalize url = rstripSlash p := by rw [normalize, h]
  rw [hnu]
  have hrev : p.toList.reverse.dropWhile (fun c => c == '/') = [] := by
    rw [List.dropWhile_eq_nil_iff]
    intro x hx
    have := hall x (List.mem_reverse.1 hx)
    simp [this]
  rw [rstripSlash]
  rw [hrev]
  rfl

/-- C10 witness: the general slash-only-path clause applied to a concrete
URL with two trailing slashes. -/
theorem C10_witness : normalize "http://host//" = "" :=
  C10_root_collapse.2.2.2 "http://host//" "//" (by rfl) (by decide)

/-! ## Entropy lemmas for claims C5 and C1 -/

lemma dedup_replicate_succ (a : String) (n : ℕ) :
    (List.replicate (n + 1) a).dedup = [a] := by
  induction n with
  | zero => rfl
  | succ n ih =>
      rw [List.replicate_succ, List.dedup_cons_of_mem (by simp), ih]

/-- A nonempty group in which every hit targets the same URL has entropy 0. -/
lemma entropy_all_eq (l : List String) (a : String) (h0 : l ≠ [])
    (h : ∀ x ∈ l, x = a) : entropy l = 0 := by
  have hrep : l = List.replicate l.length a := List.eq_replicate_iff.2 ⟨rfl, h⟩
  obtain ⟨n, hn⟩ : ∃ n, l.length = n + 1 := by
    cases l with
    | nil => exact absurd rfl h0
    | cons x xs => exact ⟨xs.length, rfl⟩
  rw [entropy, hrep, hn]
  rw [dedup_replicate_succ]
  have h1 : ((List.count a (List.replicate (n + 1) a) : ℝ))
      / (((List.replicate (n + 1) a).length : ℝ)) = 1 := by
    rw [List.count_replicate_self, List.length_replicate]
    exact div_self (by positivity)
  simp only [List.map_cons, List.map_nil, List.sum_cons, List.sum_nil, h1,
    Real.logb_one, mul_zero, add_zero, neg_zero]

/-- A group of `k` equally frequent distinct URLs has entropy `log2 k`. -/
lemma entropy_uniform (l : List String) (k m : ℕ) (hk : 0 < k) (hm : 0 < m)
    (hlen : l.dedup.length = k) (hcount : ∀ v ∈ l.dedup, l.count v = m) :
    entropy l = Real.logb 2 (k : ℝ) := by
  have hk' : ((k : ℝ)) ≠ 0 := Nat.cast_ne_zero.2 hk.ne'
  have hm' : ((m : ℝ)) ≠ 0 := Nat.cast_ne_zero.2 hm.ne'
  have hlength : l.length = k * m := by
    have h := List.sum_map_count_dedup_eq_length l
    rw [List.map_congr_left (fun v hv => hcount v hv)] at h
    rw [List.map_const', hlen, List.sum_replicate, smul_eq_mul] at h
    exact h.symm
  have hfrac : ((m : ℝ)) / (((k * m : ℕ) : ℝ)) = 1 / (k : ℝ) := by
    push_cast
    field_simp
    ring
  have hpt : ∀ v ∈ l.dedup,
      ((l.count v : ℝ) / (l.length : ℝ)) * Real.logb 2 ((l.count v : ℝ) / (l.length : ℝ))
        = (1 / (k : ℝ)) * Real.logb 2 (1 / (k : ℝ)) := by
    intro v hv
    rw [hcount v hv, hlength, hfrac]
  rw [entropy, List.map_congr_left hpt, List.map_const', hlen, List.sum_replicate]
  rw [nsmul_eq_mul, one_div, Real.logb_inv]
  field_simp

/-! ## Claim C5 — Shannon entropy of the per-IP URL distribution -/

/-- C5: the per-group entropy is the base-2 Shannon entropy of the
empirical distribution of the normalized URLs (the sum over the set of
distinct URLs of `-p·log2 p`); consequently a group whose hits all target
one URL has entropy exactly 0, and a group of `k` equally frequent distinct
URLs has entropy `log2 k`. -/
theorem C5_shannon_entropy :
    (∀ values : List String, entropy values =
        -(∑ v ∈ values.toFinset,
            ((values.count v : ℝ) / (values.length : ℝ)) *
              Real.logb 2 ((values.count v : ℝ) / (values.length : ℝ))))
    ∧ (∀ (l : List String) (a : String), l ≠ [] → (∀ x ∈ l, x = a) → entropy l = 0)
    ∧ (∀ (l : List String) (k m : ℕ), 0 < k → 0 < m → l.dedup.length = k →
        (∀ v ∈ l.dedup, l.count v = m) → entropy l = Real.logb 2 (k : ℝ)) := by
  refine ⟨fun values => ?_, entropy_all_eq, entropy_uniform⟩
  rw [entropy]
  have h1 : values.dedup.toFinset = values.toFinset := by
    ext a
    simp [List.mem_toFinset, List.mem_dedup]
  rw [← h1, List.sum_toFinset _ (List.nodup_dedup values)]

/-- C5 witness: a one-URL group has entropy 0 and a three-URL uniform group
has entropy `log2 3`. -/
theorem C5_witness :
    entropy ["u", "u", "u"] = 0 ∧ entropy ["a", "b", "c"] = Real.logb 2 3 := by
  constructor
  · exact C5_shannon_entropy.2.1 ["u", "u", "u"] "u" (by decide) (by decide)
  · have h := C5_shannon_entropy.2.2 ["a", "b", "c"] 3 1 (by decide) (by decide)
      (by decide) (by decide)
    simpa using h

/-! ## Claim C1 — the continuous-score bot policy -/

lemma logb_two_pow (n : ℕ) : Real.logb 2 ((2 : ℝ) ^ n) = (n : ℝ) := by
  rw [Real.logb_pow, Real.logb_self_eq_one (by norm_num)]
  ring

/-- A one-record group whose URL matches the attack signature but does not
end in ".php": the source's `php_hits` is 0 while the claim's
`attack_or_php_hits` is 1. -/
def gWp : List RawRecord := [⟨"", "/wp-admin/x", none, "9.9.9.9"⟩]

/-- An 8-record group with URL multiplicities 1, 1, 2, 4 (three of the hits
ending in ".php"), whose source bot score is exactly 10. -/
def gTen : List RawRecord :=
  [⟨"", "/a.php", none, "7.7.7.7"⟩, ⟨"", "/b", none, "7.7.7.7"⟩,
   ⟨"", "/c.php", none, "7.7.7.7"⟩, ⟨"", "/c.php", none, "7.7.7.7"⟩,
   ⟨"", "/d", none, "7.7.7.7"⟩, ⟨"", "/d", none, "7.7.7.7"⟩,
   ⟨"", "/d", none, "7.7.7.7"⟩, ⟨"", "/d", none, "7.7.7.7"⟩]

lemma entropy_gWp : entropy (normUrls gWp) = 0 := by
  have h1 : normUrls gWp = ["/wp-admin/x"] := by decide
  rw [h1]
  exact entropy_all_eq _ "/wp-admin/x" (by decide) (by decide)

lemma entropy_gTen : entropy (normUrls gTen) = 7 / 4 := by
  have h1 : normUrls gTen = ["/a.php", "/b", "/c.php", "/c.php", "/d", "/d", "/d", "/d"] := by
    decide
  rw [h1, entropy]
  rw [show (["/a.php", "/b", "/c.php", "/c.php", "/d", "/d", "/d", "/d"] :
      List String).dedup = ["/a.php", "/b", "/c.php", "/d"] from by decide]
  simp only [List.map_cons, List.map_nil, List.sum_cons, List.sum_nil]
  rw [show List.count "/a.php"
      (["/a.php", "/b", "/c.php", "/c.php", "/d", "/d", "/d", "/d"] : List String) = 1 from by decide]
  rw [show List.count "/b"
      (["/a.php", "/b", "/c.php", "/c.php", "/d", "/d", "/d", "/d"] : List String) = 1 from by decide]
  rw [show List.count "/c.php"
      (["/a.php", "/b", "/c.php", "/c.php", "/d", "/d", "/d", "/d"] : List String) = 2 from by decide]
  rw [show List.count "/d"
      (["/a.php", "/b", "/c.php", "/c.php", "/d", "/d", "/d", "/d"] : List String) = 4 from by decide]
  rw [show (["/a.php", "/b", "/c.php", "/c.php", "/d", "/d", "/d", "/d"] :
      List String).length = 8 from by decide]
  have v1 : ((1 : ℝ) / (8 : ℝ)) * Real.logb 2 ((1 : ℝ) / (8 : ℝ)) = -(3 / 8) := by
    rw [show (1 : ℝ) / 8 = ((2 : ℝ) ^ (3 : ℕ))⁻¹ by norm_num, Real.logb_inv, logb_two_pow]
    norm_num
  have v2 : ((2 : ℝ) / (8 : ℝ)) * Real.logb 2 ((2 : ℝ) / (8 : ℝ)) = -(1 / 2) := by
    rw [show (2 : ℝ) / 8 = ((2 : ℝ) ^ (2 : ℕ))⁻¹ by norm_num, Real.logb_inv, logb_two_pow]
    norm_num
  have v3 : ((4 : ℝ) / (8 : ℝ)) * Real.logb 2 ((4 : ℝ) / (8 : ℝ)) = -(1 / 2) := by
    rw [show (4 : ℝ) / 8 = ((2 : ℝ) ^ (1 : ℕ))⁻¹ by norm_num, Real.logb_inv, logb_two_pow]
    norm_num
  push_cast
  rw [v1, v2, v3]
  norm_num

lemma bot_score_gWp : bot_score gWp = 0.5 := by
  rw [bot_score, show unique_urls gWp = 1 from by decide,
    show php_hits gWp = 0 from by decide, entropy_gWp]
  norm_num

lemma specBotScore_gWp : specBotScore gWp = 2 := by
  rw [specBotScore, show unique_urls gWp = 1 from by decide,
    show attack_or_php_hits gWp = 1 from by decide, entropy_gWp]
  norm_num

lemma bot_score_gTen : bot_score gTen = 10 := by
  rw [bot_score, show unique_urls gTen = 4 from by decide,
    show php_hits gTen = 3 from by decide, entropy_gTen]
  norm_num

/-- C1 counterexample: on the group `gWp` the source's bot score (0.5)
differs from the claimed formula with `attack_or_php_hits` counting
`is_attack` records (2), and on the group `gTen` the source flags a
suspected bot although its score of exactly 10 does not exceed the
threshold — the source compares with `>=`, not `>`. -/
theorem C1_counterexample :
    bot_score gWp ≠ specBotScore gWp
    ∧ (suspected_bot gTen ∧ ¬ bot_score gTen > 10) := by
  refine ⟨?_, ?_, ?_⟩
  · rw [bot_score_gWp, specBotScore_gWp]
    norm_num
  · show bot_score gTen ≥ 10
    rw [bot_score_gTen]
  · rw [gt_iff_lt, bot_score_gTen]
    exact lt_irrefl 10

/-- C1 (amended): for every row of the continuous-policy per-IP report, the
bot score is `0.5·unique_urls + 1.5·php_hits + 2.0·url_entropy`, where
`php_hits` counts the group's records whose normalized URL ends in ".php"
(not the full attack-signature set), and `suspected_bot` holds exactly when
the score is greater than or equal to the threshold 10. -/
theorem C1_continuous_policy (records : List RawRecord) (row : IpRow)
    (h : row ∈ ip_report records) :
    row.bot_score =
      0.5 * (unique_urls (groupByIp records row.ip) : ℝ)
      + 1.5 * (((groupByIp records row.ip).countP
          (fun r => List.isSuffixOf ".php".toList (normalize r.source_url).toList) : ℕ) : ℝ)
      + 2.0 * entropy (normUrls (groupByIp records row.ip))
    ∧ (row.suspected_bot ↔ row.bot_score ≥ 10) := by
  rcases List.mem_map.1 h with ⟨ip, _, rfl⟩
  exact ⟨rfl, Iff.rfl⟩

/-- C1 witness: the amended equivalence applied to the concrete report of
the records of `gTen`. -/
theorem C1_witness :
    (mkIpRow "7.7.7.7" (groupByIp gTen "7.7.7.7")).suspected_bot
      ↔ (mkIpRow "7.7.7.7" (groupByIp gTen "7.7.7.7")).bot_score ≥ 10 := by
  have hmem : mkIpRow "7.7.7.7" (groupByIp gTen "7.7.7.7") ∈ ip_report gTen := by
    rw [ip_report, show sortedIps gTen = ["7.7.7.7"] from by decide]
    exact List.mem_singleton.mpr rfl
  exact (C1_continuous_policy gTen _ hmem).2

/-! ## Claim C2 — the threshold-based bot policy -/

/-- C2: in the threshold-based variant, a per-IP row is flagged
`suspected_bot` exactly when the group of its IP has at least
`BOT_THRESHOLD_URLS` (5) distinct normalized URLs or at least
`BOT_THRESHOLD_PHP` (3) records whose normalized URL matches the
attack signature. -/
theorem C2_threshold_policy (records : List RawRecord) (row : IpStatsRow)
    (h : row ∈ ip_stats records) :
    row.suspected_bot = true ↔
      BOT_THRESHOLD_URLS ≤
          ((groupByIp records row.ip).map (fun r => normalize_url r.source_url)).dedup.length
      ∨ BOT_THRESHOLD_PHP ≤
          (groupByIp records row.ip).countP
            (fun r => is_php_attack (normalize_url r.source_url)) := by
  rcases List.mem_map.1 h with ⟨ip, _, rfl⟩
  show (decide _ || decide _) = true ↔ _
  rw [Bool.or_eq_true, decide_eq_true_iff, decide_eq_true_iff]
  exact Iff.rfl

/-- The three-record example of the specification: one IP, three distinct
".php" URLs. -/
def exampleBotRecords : List RawRecord :=
  [⟨"", "/a.php", none, "1.1.1.1"⟩, ⟨"", "/b.php", none, "1.1.1.1"⟩,
   ⟨"", "/c.php", none, "1.1.1.1"⟩]

/-- C2 witness: the example IP is flagged through the attack-hits
threshold. -/
theorem C2_witness :
    (mkIpStatsRow "1.1.1.1" (groupByIp exampleBotRecords "1.1.1.1")).suspected_bot = true := by
  have hmem : mkIpStatsRow "1.1.1.1" (groupByIp exampleBotRecords "1.1.1.1")
      ∈ ip_stats exampleBotRecords := by
    rw [ip_stats, show sortedIps exampleBotRecords = ["1.1.1.1"] from by decide]
    exact List.mem_singleton.mpr rfl
  exact (C2_threshold_policy exampleBotRecords _ hmem).mpr (Or.inr (by decide))

/-! ## Claim C8 — the groupings partition the record set -/

/-- C8: the `total_hits` column of the per-IP report sums to the number of
input records, and so does the `total_hits` column of the per-URL report:
each grouping partitions the record set. -/
theorem C8_hits_partition (records : List RawRecord) :
    ((ip_report records).map (fun row => row.total_hits)).sum = records.length
    ∧ ((url_report records).map (fun row => row.total_hits)).sum = records.length := by
  constructor
  · have h2 : ((sortedIps records).map (fun ip => (groupByIp records ip).length)).sum
        = (((records.map (fun r => r.ip)).dedup).map
            (fun ip => (groupByIp records ip).length)).sum :=
      ((List.perm_insertionSort _ _).map _).sum_eq
    have h3 := sum_filtered_lengths (fun r => r.ip) records
    rw [ip_report, List.map_map]
    exact h2.trans h3
  · have h1 : ((url_report records).map (fun row => row.total_hits)).sum
        = (((sortedUrls records).map
            (fun u => mkUrlRow u (groupByUrl records u))).map
              (fun row => row.total_hits)).sum :=
      ((List.perm_insertionSort _ _).map _).sum_eq
    have h2 : ((sortedUrls records).map
        (fun u => (groupByUrl records u).length)).sum
        = (((records.map (fun r => normalize r.source_url)).dedup).map
            (fun u => (groupByUrl records u).length)).sum :=
      ((List.perm_insertionSort _ _).map _).sum_eq
    have h3 := sum_filtered_lengths (fun r => normalize r.source_url) records
    rw [h1, List.map_map]
    exact h2.trans h3

/-! ## Claim C6 — the redirect-candidate report -/

/-- Every row of `candidates` arises from one of the distinct normalized
URLs of the bot-filtered record set. -/
lemma mem_candidates (records : List RawRecord) (row : CandidateRow)
    (h : row ∈ candidates records) :
    ∃ u ∈ dashSortedUrls (human_hits records),
      row = mkCandidateRow u ((human_hits records).filter
        (fun r => normalize_url r.source_url == u)) := by
  have h2 := (List.perm_insertionSort _ _).subset h
  rcases List.mem_map.1 h2 with ⟨u, hu, hrow⟩
  exact ⟨u, hu, hrow.symm⟩

/-- C6: the redirect-candidate report is computed from exactly the records
whose IP is not flagged `suspected_bot`: every row's `hits` and `unique_ips`
are the count and distinct-IP count of the kept records of its URL, the URL
column is a permutation of the distinct normalized URLs of the kept
records, the rows are sorted descending by `hits`, and every kept record's
IP has `suspected_bot = false` in the per-IP table. -/
theorem C6_candidates_pipeline (records : List RawRecord) :
    (∀ row ∈ candidates records,
        row.hits = ((human_hits records).filter
            (fun r => normalize_url r.source_url == row.normalized_url)).length
        ∧ row.unique_ips = (((human_hits records).filter
            (fun r => normalize_url r.source_url == row.normalized_url)).map
              (fun r => r.ip)).dedup.length
        ∧ row.normalized_url ∈ (human_hits records).map (fun r => normalize_url r.source_url))
    ∧ ((candidates records).map (fun row => row.normalized_url)).Perm
        ((human_hits records).map (fun r => normalize_url r.source_url)).dedup
    ∧ (candidates records).Pairwise (fun a b => b.hits ≤ a.hits)
    ∧ (∀ r ∈ human_hits records, ∀ row ∈ ip_stats records,
        row.ip = r.ip → row.suspected_bot = false) := by
  refine ⟨?_, ?_, ?_, ?_⟩
  · intro row hrow
    rcases mem_candidates records row hrow with ⟨u, hu, rfl⟩
    refine ⟨rfl, rfl, ?_⟩
    have hu2 := (List.perm_insertionSort _ _).subset hu
    exact List.mem_dedup.1 hu2
  · have hmap : ((candidates records).map (fun row => row.normalized_url)).Perm
        (((dashSortedUrls (human_hits records)).map
          (fun u => mkCandidateRow u ((human_hits records).filter
            (fun r => normalize_url r.source_url == u)))).map
              (fun row => row.normalized_url)) :=
      (List.perm_insertionSort _ _).map _
    have hkeys : (((dashSortedUrls (human_hits records)).map
        (fun u => mkCandidateRow u ((human_hits records).filter
          (fun r => normalize_url r.source_url == u)))).map
            (fun row => row.normalized_url))
        = dashSortedUrls (human_hits records) := by
      rw [List.map_map]
      exact List.map_id' _
    have hperm2 : (dashSortedUrls (human_hits records)).Perm
        ((human_hits records).map (fun r => normalize_url r.source_url)).dedup :=
      List.perm_insertionSort _ _
    rw [hkeys] at hmap
    exact hmap.trans hperm2
  · haveI : IsTotal CandidateRow (fun a b => b.hits ≤ a.hits) :=
      ⟨fun a b => Nat.le_total b.hits a.hits⟩
    haveI : IsTrans CandidateRow (fun a b => b.hits ≤ a.hits) :=
      ⟨fun _ _ _ hab hbc => le_trans hbc hab⟩
    exact List.sorted_insertionSort _ _
  · intro r hr row hrow hip
    rcases List.mem_map.1 hrow with ⟨ip1, _, hrow1⟩
    have hipr : r.ip ∈ human_ips records := by
      have := (List.mem_filter.1 hr).2
      simpa [List.contains] using this
    rcases List.mem_map.1 hipr with ⟨row2, hrow2, hip2⟩
    have hrow2f := List.mem_filter.1 hrow2
    rcases List.mem_map.1 hrow2f.1 with ⟨ip2, _, hrow2b⟩
    have hip2b : ip2 = r.ip := by
      rw [← hip2, ← hrow2b]
      rfl
    have hip1b : ip1 = r.ip := by
      rw [← hip, ← hrow1]
      rfl
    have : row = row2 := by
      rw [← hrow1, ← hrow2b, hip1b, hip2b]
    rw [this]
    have := hrow2f.2
    simpa using this

/-- C6 witness: the row formulas applied to a concrete non-bot record set. -/
theorem C6_witness :
    (mkCandidateRow "/page" ((human_hits [⟨"", "/page", none, "2.2.2.2"⟩]).filter
        (fun r => normalize_url r.source_url == "/page"))).hits
      = ((human_hits [⟨"", "/page", none, "2.2.2.2"⟩]).filter
          (fun r => normalize_url r.source_url == "/page")).length := by
  have h := (C6_candidates_pipeline [⟨"", "/page", none, "2.2.2.2"⟩]).1
    (mkCandidateRow "/page" ((human_hits [⟨"", "/page", none, "2.2.2.2"⟩]).filter
      (fun r => normalize_url r.source_url == "/page")))
    (by decide)
  exact h.1

end InterPro
